import Mathlib

/-!
Verification of the `graphqlgo` GraphQL client (`src/graphqlgo.go`).

The embedding below models the client's single request/response exchange:
request construction (`NewRequest`, the request and client options), the
wire request envelope (`RequestBody` and its JSON encoding), the additive
header merge performed by `Run`, the HTTP exchange itself (with the
transport collaborator passed in as a function, mirroring
`Client.httpClient.Do`), and the decoding of the response envelope
(`GraphQLResponse` / `GraphQLError`) following Go's `encoding/json`
unmarshalling semantics, including its case-insensitive field-name
matching.

JSON texts are modelled by their abstract syntax tree `Json`; the spec
lists the JSON encoder/decoder as an external collaborator, so string
parsing/printing is outside the embedding while the object/field structure
the code manipulates is inside it.  Go's `map[string][]string` header type
is modelled as an ordered list of (key, value) entries; Go map iteration
order across distinct keys is not deterministic, so the observable of a
header set is `headerValues`: the ordered value list under one key, which
Go does preserve.  Header keys are assumed canonical (Go canonicalizes
keys uniformly in `Header.Add`/`Header.Set` at every level, so
canonicalization commutes with everything modelled here).
-/

namespace Graphqlgo

/-- Abstract syntax of JSON values.  Numbers are restricted to integers,
which covers every numeric field the client touches (status codes,
content lengths, error line/column numbers). -/
inductive Json where
  | null : Json
  | bool (b : Bool) : Json
  | num (n : Int) : Json
  | str (s : String) : Json
  | arr (xs : List Json) : Json
  | obj (fields : List (String × Json)) : Json
deriving Repr

/-- Structural decidable equality for `Json` (spelled out because the
nested `List` occurrences defeat automatic derivation). -/
def Json.beq : Json → Json → Bool
  | .null, .null => true
  | .bool a, .bool b => a == b
  | .num a, .num b => a == b
  | .str a, .str b => a == b
  | .arr xs, .arr ys => beqList xs ys
  | .obj xs, .obj ys => beqFields xs ys
  | _, _ => false
where
  beqList : List Json → List Json → Bool
    | [], [] => true
    | x :: xs, y :: ys => Json.beq x y && beqList xs ys
    | _, _ => false
  beqFields : List (String × Json) → List (String × Json) → Bool
    | [], [] => true
    | (k, v) :: xs, (l, w) :: ys => k == l && Json.beq v w && beqFields xs ys
    | _, _ => false

mutual
theorem Json.beq_iff : ∀ a b : Json, Json.beq a b = true ↔ a = b
  | .null, b => by cases b <;> simp [Json.beq]
  | .bool a, b => by cases b <;> simp [Json.beq]
  | .num a, b => by cases b <;> simp [Json.beq]
  | .str a, b => by cases b <;> simp [Json.beq]
  | .arr xs, b => by
      cases b <;> simp [Json.beq]
      exact Json.beqList_iff xs _
  | .obj xs, b => by
      cases b <;> simp [Json.beq]
      exact Json.beqFields_iff xs _

theorem Json.beqList_iff : ∀ xs ys : List Json, Json.beq.beqList xs ys = true ↔ xs = ys
  | [], ys => by cases ys <;> simp [Json.beq.beqList]
  | x :: xs, ys => by
      cases ys <;> simp [Json.beq.beqList]
      exact and_congr (Json.beq_iff x _) (Json.beqList_iff xs _)

theorem Json.beqFields_iff :
    ∀ xs ys : List (String × Json), Json.beq.beqFields xs ys = true ↔ xs = ys
  | [], ys => by cases ys <;> simp [Json.beq.beqFields]
  | (k, v) :: xs, ys => by
      cases ys with
      | nil => simp [Json.beq.beqFields]
      | cons y ys =>
        obtain ⟨l, w⟩ := y
        simp [Json.beq.beqFields]
        exact and_congr (and_congr Iff.rfl (Json.beq_iff v _)) (Json.beqFields_iff xs _)
end

instance : DecidableEq Json := fun a b =>
  decidable_of_iff (Json.beq a b = true) (Json.beq_iff a b)

/-- `http.Header`: a header set, as the ordered list of its
(key, value) entries.  `Add` appends an entry; the per-key value list is
the observable (Go stores `map[string][]string`). -/
abbrev Header := List (String × String)

/-- `http.Header.Add`: appends `value` to the list stored under `key`. -/
def headerAdd (h : Header) (key value : String) : Header :=
  h ++ [(key, value)]

/-- `http.Header.Set`: replaces the whole value list under `key` by the
single `value`. -/
def headerSet (h : Header) (key value : String) : Header :=
  h.filter (fun p => p.1 ≠ key) ++ [(key, value)]

/-- The ordered list of values a header set carries under `key`. -/
def headerValues (h : Header) (key : String) : List String :=
  (h.filter (fun p => p.1 = key)).map (fun p => p.2)

/-- The nested `Add` loop `for key, values := range src { for _, value :=
range values { dst.Add(key, value) } }` used twice in `Run` and once in
`WithHeaders`: every entry of `src` is added to `dst`. -/
def headerAddAll (dst src : Header) : Header :=
  src.foldl (fun acc p => headerAdd acc p.1 p.2) dst

theorem headerAddAll_eq_append (dst src : Header) :
    headerAddAll dst src = dst ++ src := by
  induction src generalizing dst with
  | nil => simp [headerAddAll]
  | cons p rest ih =>
    simp [headerAddAll, headerAdd] at *
    rw [ih]
    simp

theorem headerValues_append (h g : Header) (key : String) :
    headerValues (h ++ g) key = headerValues h key ++ headerValues g key := by
  simp [headerValues, List.filter_append]

/-- `Request`: a GraphQL request.  `vars` is a Go map that may be `nil`
(the zero value), modelled as `Option`; `opName` is `*string`, also
`Option`.  `Header` is the request-scoped header set. -/
structure Request where
  q : String
  vars : Option (List (String × Json)) := none
  opName : Option String := none
  Header : Header := []
deriving DecidableEq, Repr

/-- `RequestOption`: a functional option for `NewRequest`. -/
abbrev RequestOption := Request → Request

/-- `NewRequest`: builds the request with the given query text, an empty
request header set and nil variables/operation name, then applies the
options in order. -/
def NewRequest (q : String) (opts : List RequestOption) : Request :=
  opts.foldl (fun r optFn => optFn r) { q := q, Header := [] }

/-- `WithVars`: sets the request's variables. -/
def WithVars (vars : List (String × Json)) : RequestOption :=
  fun r => { r with vars := some vars }

/-- `WithOperationName`: sets the request's operation name, but only when
the given string is non-empty (`if s != "" { r.opName = &s }`). -/
def WithOperationName (s : String) : RequestOption :=
  fun r => if s ≠ "" then { r with opName := some s } else r

/-- One entry of the client's diagnostic snapshot `InspectRun`
(`map[string]interface{}`); the constructors cover exactly the value
shapes `Run` stores. -/
inductive InspectVal where
  | reqBody (query : String) (vars : Option (List (String × Json)))
      (opName : Option String) : InspectVal
  | headers (h : Header) : InspectVal
  | statusCode (n : Int) : InspectVal
  | cookies (cs : List String) : InspectVal
  | contentLength (n : Int) : InspectVal
  | body (s : String) : InspectVal
deriving DecidableEq, Repr

/-- `InspectData` / the `Client.InspectRun` field: an open mapping from
string keys to recorded values, kept as the ordered list of entries
written during the exchange. -/
abbrev InspectData := List (String × InspectVal)

/-- Looks up a key in a diagnostic snapshot. -/
def inspectLookup (d : InspectData) (key : String) : Option InspectVal :=
  ((d.filter (fun p => p.1 = key)).map (fun p => p.2)).getLast?

/-- `Client`: endpoint, client-level header set, the immediate-close flag
and the diagnostic snapshot of the last `Run`.  The `httpClient`
transport collaborator is not client state in the embedding: it is passed
to `Run` as a function (see `Transport`), which also covers the
`http.DefaultClient` fallback. -/
structure Client where
  Endpoint : String
  Header : Header := []
  closeReq : Bool := false
  InspectRun : InspectData := []
deriving DecidableEq, Repr

/-- `ClientOption`: a functional option for `NewClient`. -/
abbrev ClientOption := Client → Client

/-- `NewClient`: sets the endpoint, pre-populates the default
`Content-Type` and `Accept` headers with `Set`, then applies the options
in order. -/
def NewClient (endpoint : String) (opts : List ClientOption) : Client :=
  let c : Client := { Endpoint := endpoint }
  let c := { c with
    Header := headerSet (headerSet c.Header "Content-Type"
      "application/json; charset=utf-8") "Accept" "application/json; charset=utf-8" }
  opts.foldl (fun c optFn => optFn c) c

/-- `WithHeaders`: adds (not sets) every entry of `headers` to the
client-level header set. -/
def WithHeaders (headers : Header) : ClientOption :=
  fun client => { client with Header := headerAddAll client.Header headers }

/-- `ImmediatelyCloseReqBody`: sets the immediate-close flag. -/
def ImmediatelyCloseReqBody : ClientOption :=
  fun client => { client with closeReq := true }

/-- `RequestBody`: the wire request envelope
`{query, variables, operationName}`. -/
structure RequestBody where
  Query : String
  Variables : Option (List (String × Json))
  OperationName : Option String
deriving DecidableEq, Repr

/-- JSON encoding of the wire request envelope, following Go's
`json.Marshal` of `RequestBody`: fields appear in declaration order under
their tags, a `nil` map and a `nil` `*string` both encode as JSON
`null`. -/
def encodeRequestBody (b : RequestBody) : Json :=
  Json.obj
    [("query", Json.str b.Query),
     ("variables", match b.Variables with
       | none => Json.null
       | some m => Json.obj m),
     ("operationName", match b.OperationName with
       | none => Json.null
       | some s => Json.str s)]

/-- The value an encoded JSON object carries under `key` (exact key
lookup, for stating what an envelope contains on the wire). -/
def jsonField (j : Json) (key : String) : Option Json :=
  match j with
  | Json.obj fields => ((fields.filter (fun p => p.1 = key)).map (fun p => p.2)).getLast?
  | _ => none

/-- ASCII case folding of one character code (uppercase letters map to
their lowercase counterparts). -/
def asciiFold (n : Nat) : Nat := if 65 ≤ n ∧ n ≤ 90 then n + 32 else n

/-- Case-insensitive key comparison, as Go's `json.Unmarshal` uses when an
incoming object key has no exact-match struct field/tag (`encoding/json`:
"preferring an exact match but also accepting a case-insensitive
match").  Go folds with `strings.EqualFold`; ASCII folding coincides with
it on the ASCII JSON keys handled here. -/
def eqFold (a b : String) : Bool :=
  a.data.map (fun c => asciiFold c.toNat) == b.data.map (fun c => asciiFold c.toNat)

instance {ε α : Type} [DecidableEq ε] [DecidableEq α] : DecidableEq (Except ε α) := fun x y =>
  match x, y with
  | .error a, .error b =>
      decidable_of_iff (a = b) ⟨fun h => by rw [h], fun h => Except.error.inj h⟩
  | .ok a, .ok b =>
      decidable_of_iff (a = b) ⟨fun h => by rw [h], fun h => Except.ok.inj h⟩
  | .error _, .ok _ => .isFalse (fun h => Except.noConfusion h)
  | .ok _, .error _ => .isFalse (fun h => Except.noConfusion h)

/-- The value `json.Unmarshal` assigns to the struct field tagged `tag`
from the entries of a JSON object: incoming keys are processed in order,
a key matches the field exactly or case-insensitively, and a later
occurrence overwrites an earlier one (so the last matching entry wins).
The structs decoded here have pairwise fold-distinct tags, so each
incoming key matches at most one field. -/
def fieldValue (fields : List (String × Json)) (tag : String) : Option Json :=
  ((fields.filter (fun p => eqFold p.1 tag)).map (fun p => p.2)).getLast?

/-- One source location of a `GraphQLError`: the anonymous
`struct { Line int; Column int }` with JSON tags `"Line"` and
`"Column"`. -/
structure Location where
  Line : Int
  Column : Int
deriving DecidableEq, Repr

/-- Decoding failures surface as Go `json.Unmarshal` errors; the message
is irrelevant to control flow, so errors are bare. -/
abbrev DecodeErr := Unit

/-- Decodes one element of the `locations` array into a `Location`.
Fields start at their zero values; JSON `null` leaves the target
untouched; a non-integer where an `int` is expected is an unmarshal
error.  The wire's lowercase `"line"`/`"column"` keys match the `"Line"`
/`"Column"` tags case-insensitively. -/
def decodeLocation : Json → Except DecodeErr Location
  | Json.null => .ok { Line := 0, Column := 0 }
  | Json.obj fields => do
      let l ← match fieldValue fields "Line" with
        | none => .ok 0
        | some Json.null => .ok 0
        | some (Json.num n) => .ok n
        | some _ => .error ()
      let col ← match fieldValue fields "Column" with
        | none => .ok 0
        | some Json.null => .ok 0
        | some (Json.num n) => .ok n
        | some _ => .error ()
      .ok { Line := l, Column := col }
  | _ => .error ()

/-- Decodes the elements of the `locations` array in order. -/
def decodeLocations : List Json → Except DecodeErr (List Location)
  | [] => .ok []
  | j :: rest => do
      let l ← decodeLocation j
      let ls ← decodeLocations rest
      .ok (l :: ls)

/-- `GraphQLError`: one protocol-level error record.  `Path` elements are
arbitrary JSON values (`[]interface{}`); `Extensions` is an open string
map (`map[string]interface{}`, `nil` encoded as `[]`). -/
structure GraphQLError where
  Message : String
  Locations : List Location
  Path : List Json
  Extensions : List (String × Json)
deriving DecidableEq, Repr

/-- Decodes one element of the `errors` array into a `GraphQLError`
(fields `message`, `locations`, `path`, `extensions`; absent or `null`
fields keep their zero values). -/
def decodeGraphQLError : Json → Except DecodeErr GraphQLError
  | Json.null => .ok { Message := "", Locations := [], Path := [], Extensions := [] }
  | Json.obj fields => do
      let msg ← match fieldValue fields "message" with
        | none => .ok ""
        | some Json.null => .ok ""
        | some (Json.str s) => .ok s
        | some _ => .error ()
      let locs ← match fieldValue fields "locations" with
        | none => .ok []
        | some Json.null => .ok []
        | some (Json.arr xs) => decodeLocations xs
        | some _ => .error ()
      let path ← match fieldValue fields "path" with
        | none => .ok []
        | some Json.null => .ok []
        | some (Json.arr xs) => .ok xs
        | some _ => .error ()
      let ext ← match fieldValue fields "extensions" with
        | none => .ok []
        | some Json.null => .ok []
        | some (Json.obj m) => .ok m
        | some _ => .error ()
      .ok { Message := msg, Locations := locs, Path := path, Extensions := ext }
  | _ => .error ()

/-- Decodes the `errors` value into the error-record sequence: absent
handled by the caller, `null` gives the nil slice, an array decodes
element-wise in order. -/
def decodeErrors : Json → Except DecodeErr (List GraphQLError)
  | Json.null => .ok []
  | Json.arr xs => decodeList xs
  | _ => .error ()
where
  decodeList : List Json → Except DecodeErr (List GraphQLError)
    | [] => .ok []
    | j :: rest => do
        let e ← decodeGraphQLError j
        let es ← decodeList rest
        .ok (e :: es)

/-- How decoding the envelope's `data` field updates the caller's result
target.  The target is a generic JSON container: `none` means no target
was supplied (`resp == nil`), `some t` a target currently holding `t`.
A present, non-`null` `data` value is written into a supplied target;
`null`, an absent key, or an absent target leave it untouched. -/
def updateTarget (target : Option Json) (fields : List (String × Json)) : Option Json :=
  match target, fieldValue fields "data" with
  | some _, some d => if d = Json.null then target else some d
  | _, _ => target

/-- Decoding of the envelope's `errors` field: an absent key leaves the
zero value (the nil slice), a present value decodes via
`decodeErrors`. -/
def errorsField (fields : List (String × Json)) : Except DecodeErr (List GraphQLError) :=
  match fieldValue fields "errors" with
  | none => .ok []
  | some ej => decodeErrors ej

/-- Decodes the wire response envelope `{data, errors}` into
(final state of the caller's result target, error-record list),
mirroring `json.Decode` into a `GraphQLResponse` whose `Data` interface
was pre-loaded with the caller's target (`gr.Data = resp`).  A body that
is not a JSON object (and not `null`) fails to unmarshal into the
envelope struct. -/
def decodeGraphQLResponse (j : Json) (target : Option Json) :
    Except DecodeErr (Option Json × List GraphQLError) :=
  match j with
  | Json.null => .ok (target, [])
  | Json.obj fields =>
      (errorsField fields).map (fun es => (updateTarget target fields, es))
  | _ => .error ()

/-- The supplied `context.Context`, reduced to what `Run` observes at
entry: whether `<-ctx.Done()` is already selectable. -/
structure Ctx where
  done : Bool
deriving DecidableEq, Repr

/-- The outbound `*http.Request` built by `Run`: POST to the client's
endpoint, the encoded envelope as body, the immediate-close flag, and the
merged header set. -/
structure OutboundRequest where
  Method : String
  URL : String
  Body : Json
  Close : Bool
  Header : Header
deriving DecidableEq, Repr

/-- What the transport collaborator hands back for a 200-class exchange:
status code, response headers, cookies, content length, the raw body
text, whether draining the body fails (`io.Copy` error), and the JSON
parse of the body text (`none` when it is not valid JSON) — the textual
JSON parser itself is the external encoder/decoder collaborator. -/
structure HTTPResponse where
  StatusCode : Int
  Header : Header := []
  Cookies : List String := []
  ContentLength : Int := 0
  Body : String := ""
  BodyReadErr : Bool := false
  BodyJson : Option Json := none
deriving DecidableEq, Repr

/-- Result of `httpClient.Do`: a transport-level failure or a response. -/
inductive TransportResult where
  | failure : TransportResult
  | success (res : HTTPResponse) : TransportResult
deriving DecidableEq, Repr

/-- The `httpClient` collaborator: one context-bound POST. -/
abbrev Transport := OutboundRequest → TransportResult

/-- The failure channel of `Run` (the Go `error` return), by cause. -/
inductive RunError where
  | ctxErr : RunError
  | encodeErr : RunError
  | transportErr : RunError
  | httpStatus (code : Int) : RunError
  | readErr : RunError
  | decodeErr : RunError
deriving DecidableEq, Repr

/-- Everything observable after a call to `Run`: the returned GraphQL
error list (`[]` for Go's `nil`), the returned failure error, the final
state of the caller's result target, the client (with its updated
diagnostic snapshot), and the number of transport invocations made. -/
structure RunOutcome where
  gqlErrors : List GraphQLError
  err : Option RunError
  target : Option Json
  client : Client
  calls : Nat
deriving DecidableEq, Repr

/-- The outbound request `Run` builds: `http.NewRequest` starts with an
empty header set, then the client-level entries are added, then the
request-level entries (both via `Header.Add` in loops). -/
def buildOutbound (c : Client) (req : Request) : OutboundRequest :=
  { Method := "POST"
    URL := c.Endpoint
    Body := encodeRequestBody
      { Query := req.q, Variables := req.vars, OperationName := req.opName }
    Close := c.closeReq
    Header := headerAddAll (headerAddAll [] c.Header) req.Header }

/-- What `Run` does from `res, err := c.httpClient.Do(r)` on: transport
failure returned verbatim; response metadata recorded; the non-200
status gate; body drain (and its record); envelope decode into the
target; classification of the error list.  `c` carries the snapshot
entries already recorded before the transport call; every branch here
has made exactly one transport invocation. -/
def runExchange (c : Client) (resp : Option Json) (result : TransportResult) : RunOutcome :=
  match result with
  | .failure =>
      { gqlErrors := [], err := some .transportErr, target := resp, client := c, calls := 1 }
  | .success res =>
      let c := { c with InspectRun := c.InspectRun ++
        [("ResStatusCode", InspectVal.statusCode res.StatusCode),
         ("ResHeaders", InspectVal.headers res.Header),
         ("ResCookies", InspectVal.cookies res.Cookies),
         ("ResContentLength", InspectVal.contentLength res.ContentLength)] }
      if res.StatusCode ≠ 200 then
        { gqlErrors := [], err := some (.httpStatus res.StatusCode), target := resp,
          client := c, calls := 1 }
      else if res.BodyReadErr then
        { gqlErrors := [], err := some .readErr, target := resp, client := c, calls := 1 }
      else
        let c := { c with InspectRun := c.InspectRun ++
          [("ResBody", InspectVal.body res.Body)] }
        match res.BodyJson with
        | none =>
            { gqlErrors := [], err := some .decodeErr, target := resp, client := c, calls := 1 }
        | some j =>
            match decodeGraphQLResponse j resp with
            | .error _ =>
                { gqlErrors := [], err := some .decodeErr, target := resp,
                  client := c, calls := 1 }
            | .ok (t, es) =>
                if es.length > 0 then
                  { gqlErrors := es, err := none, target := t, client := c, calls := 1 }
                else
                  { gqlErrors := [], err := none, target := t, client := c, calls := 1 }

/-- `Client.Run`: one exchange.  In order: entry cancellation check;
reset of `InspectRun` to empty; envelope serialization (recorded);
outbound request build and header merge (recorded); then the transport
call and everything after it (`runExchange`).  Encoding the envelope
cannot fail in the embedding because every `Json` value is serializable
(`RunError.encodeErr` is unreachable), and `http.NewRequest` cannot fail
on the opaque method and URL used. -/
def Run (c : Client) (ctx : Ctx) (req : Request) (resp : Option Json)
    (transport : Transport) : RunOutcome :=
  if ctx.done then
    { gqlErrors := [], err := some .ctxErr, target := resp, client := c, calls := 0 }
  else
    let c := { c with InspectRun := [] }
    let c := { c with InspectRun := c.InspectRun ++
      [("ReqBody", InspectVal.reqBody req.q req.vars req.opName)] }
    let r := buildOutbound c req
    let c := { c with InspectRun := c.InspectRun ++
      [("ReqHeaders", InspectVal.headers r.Header)] }
    runExchange c resp (transport r)

/-! Helper lemmas -/

theorem buildOutbound_inspect_irrelevant (c : Client) (snap : InspectData) (req : Request) :
    buildOutbound { c with InspectRun := snap } req = buildOutbound c req := rfl

theorem headerValues_buildOutbound (c : Client) (req : Request) (k : String) :
    headerValues (buildOutbound c req).Header k =
      headerValues c.Header k ++ headerValues req.Header k := by
  simp [buildOutbound, headerAddAll_eq_append, headerValues_append]

theorem runExchange_client_Header (c : Client) (resp : Option Json) (tr : TransportResult) :
    (runExchange c resp tr).client.Header = c.Header := by
  unfold runExchange
  repeat' split
  all_goals rfl

theorem run_client_Header (c : Client) (ctx : Ctx) (req : Request) (resp : Option Json)
    (transport : Transport) :
    (Run c ctx req resp transport).client.Header = c.Header := by
  unfold Run
  split
  · rfl
  · exact runExchange_client_Header _ _ _

theorem runExchange_inspect_head (c : Client) (resp : Option Json) (tr : TransportResult)
    (x : String × InspectVal) (xs : InspectData) (h : c.InspectRun = x :: xs) :
    (runExchange c resp tr).client.InspectRun.head? = some x := by
  unfold runExchange
  repeat' split
  all_goals simp [h]

theorem decodeLocations_wire (ps : List (Int × Int)) :
    decodeLocations (ps.map (fun p =>
        Json.obj [("line", Json.num p.1), ("column", Json.num p.2)])) =
      .ok (ps.map (fun p => { Line := p.1, Column := p.2 })) := by
  induction ps with
  | nil => rfl
  | cons p rest ih =>
    have h1 : decodeLocation (Json.obj [("line", Json.num p.1), ("column", Json.num p.2)]) =
        .ok { Line := p.1, Column := p.2 } := rfl
    simp [decodeLocations, h1, ih]
    rfl

/-! The claims -/

/-- C1: for every request whose variables and operation name are both
absent, the wire envelope `Run` serializes — the body of the outbound
request it hands to the transport — carries the key `"variables"` with
value JSON `null` and the key `"operationName"` with value JSON `null`;
neither key is omitted and neither value is an empty object or string.
The last conjunct pins the envelope to `Run` itself: the transport is
consulted exactly at `buildOutbound c req`. -/
theorem run_absent_fields_serialize_as_null (c : Client) (ctx : Ctx) (req : Request)
    (resp : Option Json) (transport : Transport)
    (hv : req.vars = none) (ho : req.opName = none) (hctx : ctx.done = false) :
    jsonField (buildOutbound c req).Body "variables" = some Json.null ∧
    jsonField (buildOutbound c req).Body "operationName" = some Json.null ∧
    Run c ctx req resp transport =
      Run c ctx req resp (fun _ => transport (buildOutbound c req)) := by
  refine ⟨?_, ?_, ?_⟩
  · simp [buildOutbound, encodeRequestBody, jsonField, hv]
  · simp [buildOutbound, encodeRequestBody, jsonField, ho]
  · simp [Run, hctx, buildOutbound_inspect_irrelevant]

/-- Witness for C1 at a concrete client and request. -/
theorem run_absent_fields_serialize_as_null_witness :
    (NewRequest "querytext" []).vars = none ∧
    (NewRequest "querytext" []).opName = none ∧
    Ctx.done { done := false } = false ∧
    (jsonField (buildOutbound (NewClient "http://e" []) (NewRequest "querytext" [])).Body
        "variables" = some Json.null ∧
     jsonField (buildOutbound (NewClient "http://e" []) (NewRequest "querytext" [])).Body
        "operationName" = some Json.null ∧
     Run (NewClient "http://e" []) { done := false } (NewRequest "querytext" []) none
         (fun _ => TransportResult.failure) =
       Run (NewClient "http://e" []) { done := false } (NewRequest "querytext" []) none
         (fun _ => TransportResult.failure)) :=
  ⟨rfl, rfl, rfl,
    run_absent_fields_serialize_as_null (NewClient "http://e" []) { done := false }
      (NewRequest "querytext" []) none (fun _ => TransportResult.failure) rfl rfl rfl⟩

/-- C4: the outbound header set of an exchange is the client-level
entries followed by the request-level entries, additively: under every
key, the outbound value list is the client's value list concatenated
with the request's value list — never a replacement. -/
theorem outbound_headers_merge_additively (c : Client) (req : Request) (k : String) :
    headerValues (buildOutbound c req).Header k =
      headerValues c.Header k ++ headerValues req.Header k :=
  headerValues_buildOutbound c req k

/-- C5: when the supplied context is already done at entry, `Run`
returns the context's error with a nil GraphQL error list, makes no
transport call, and leaves the client — in particular its `InspectRun`
diagnostic snapshot — exactly as it was before the call. -/
theorem run_cancelled_ctx_immediate_return (c : Client) (ctx : Ctx) (req : Request)
    (resp : Option Json) (transport : Transport) (hctx : ctx.done = true) :
    Run c ctx req resp transport =
      { gqlErrors := [], err := some RunError.ctxErr, target := resp,
        client := c, calls := 0 } := by
  simp [Run, hctx]

/-- Witness for C5: a cancelled context at a concrete client whose
snapshot holds a stale entry, which survives untouched. -/
theorem run_cancelled_ctx_immediate_return_witness :
    Ctx.done { done := true } = true ∧
    Run { Endpoint := "http://e", InspectRun := [("ResBody", InspectVal.body "old")] }
        { done := true } (NewRequest "q" []) none (fun _ => TransportResult.failure) =
      { gqlErrors := [], err := some RunError.ctxErr, target := none,
        client := { Endpoint := "http://e",
                    InspectRun := [("ResBody", InspectVal.body "old")] },
        calls := 0 } :=
  ⟨rfl,
    run_cancelled_ctx_immediate_return
      { Endpoint := "http://e", InspectRun := [("ResBody", InspectVal.body "old")] }
      { done := true } (NewRequest "q" []) none (fun _ => TransportResult.failure) rfl⟩

/-- C10: applying the operation-name option with the empty string is the
identity on any request — it neither sets nor clears the operation name —
and a request configured only with an empty operation name still
serializes `operationName` as JSON `null` in the outbound envelope. -/
theorem withOperationName_empty_is_identity (r : Request) (c : Client) (q : String) :
    WithOperationName "" r = r ∧
    jsonField (buildOutbound c (NewRequest q [WithOperationName ""])).Body
      "operationName" = some Json.null := by
  constructor
  · simp [WithOperationName]
  · simp [NewRequest, WithOperationName, buildOutbound, encodeRequestBody, jsonField]

/-- C3: on a response whose HTTP status is not exactly 200, `Run`
returns a nil GraphQL error list together with a failure carrying the
numeric status code, leaves the caller's result target at its incoming
value, and never reaches the body-decoding stage — witnessed by the
diagnostic snapshot carrying no `ResBody` entry, which is only recorded
on the decode path.  A non-200 status therefore never coexists with a
decoded protocol-error list. -/
theorem run_non200_aborts_without_decoding (c : Client) (ctx : Ctx) (req : Request)
    (resp : Option Json) (res : HTTPResponse)
    (hctx : ctx.done = false) (hstatus : res.StatusCode ≠ 200) :
    (Run c ctx req resp (fun _ => .success res)).gqlErrors = [] ∧
    (Run c ctx req resp (fun _ => .success res)).err =
      some (RunError.httpStatus res.StatusCode) ∧
    (Run c ctx req resp (fun _ => .success res)).target = resp ∧
    inspectLookup (Run c ctx req resp (fun _ => .success res)).client.InspectRun
      "ResBody" = none := by
  simp [Run, hctx, runExchange, hstatus, inspectLookup]

/-- Witness for C3: a 400 response with a decodable error body, which is
nevertheless not decoded. -/
theorem run_non200_aborts_without_decoding_witness :
    Ctx.done { done := false } = false ∧
    HTTPResponse.StatusCode { StatusCode := 400, Body := "x", BodyJson := some (Json.obj [("errors", Json.arr [Json.obj [("message", Json.str "badbad")]])]) } ≠ 200 ∧
    ((Run (NewClient "http://e" []) { done := false } (NewRequest "querytext" []) (some (Json.obj [])) (fun _ => .success { StatusCode := 400, Body := "x", BodyJson := some (Json.obj [("errors", Json.arr [Json.obj [("message", Json.str "badbad")]])]) })).gqlErrors = [] ∧
     (Run (NewClient "http://e" []) { done := false } (NewRequest "querytext" []) (some (Json.obj [])) (fun _ => .success { StatusCode := 400, Body := "x", BodyJson := some (Json.obj [("errors", Json.arr [Json.obj [("message", Json.str "badbad")]])]) })).err = some (RunError.httpStatus (HTTPResponse.StatusCode { StatusCode := 400, Body := "x", BodyJson := some (Json.obj [("errors", Json.arr [Json.obj [("message", Json.str "badbad")]])]) })) ∧
     (Run (NewClient "http://e" []) { done := false } (NewRequest "querytext" []) (some (Json.obj [])) (fun _ => .success { StatusCode := 400, Body := "x", BodyJson := some (Json.obj [("errors", Json.arr [Json.obj [("message", Json.str "badbad")]])]) })).target = some (Json.obj []) ∧
     inspectLookup (Run (NewClient "http://e" []) { done := false } (NewRequest "querytext" []) (some (Json.obj [])) (fun _ => .success { StatusCode := 400, Body := "x", BodyJson := some (Json.obj [("errors", Json.arr [Json.obj [("message", Json.str "badbad")]])]) })).client.InspectRun "ResBody" = none) :=
  ⟨rfl, by decide,
    run_non200_aborts_without_decoding (NewClient "http://e" []) { done := false }
      (NewRequest "querytext" []) (some (Json.obj []))
      { StatusCode := 400, Body := "x", BodyJson := some (Json.obj [("errors", Json.arr [Json.obj [("message", Json.str "badbad")]])]) }
      rfl (by decide)⟩

/-- C6: for a context not already done at entry, the whole outcome of
`Run` — including the final diagnostic snapshot — is independent of
whatever `InspectRun` held before the call (the snapshot is reset to
empty first), and the snapshot recorded by the call starts with this
exchange's own `ReqBody` entry: nothing recorded by a previous exchange
remains visible. -/
theorem run_resets_inspect_snapshot (c : Client) (snap : InspectData) (ctx : Ctx)
    (req : Request) (resp : Option Json) (transport : Transport)
    (hctx : ctx.done = false) :
    Run { c with InspectRun := snap } ctx req resp transport =
      Run { c with InspectRun := [] } ctx req resp transport ∧
    (Run { c with InspectRun := snap } ctx req resp transport).client.InspectRun.head? =
      some ("ReqBody", InspectVal.reqBody req.q req.vars req.opName) := by
  constructor
  · simp [Run, hctx]
  · simp only [Run, hctx, Bool.false_eq_true, if_false]
    exact runExchange_inspect_head _ _ _ _ _ rfl

/-- Witness for C6: a client with a stale snapshot entry; the run's
snapshot is the one a fresh client would produce. -/
theorem run_resets_inspect_snapshot_witness :
    Ctx.done { done := false } = false ∧
    (Run { Endpoint := "http://e",
           InspectRun := [("ResBody", InspectVal.body "stale")] }
        { done := false } (NewRequest "q" []) none (fun _ => TransportResult.failure) =
      Run { Endpoint := "http://e", InspectRun := [] }
        { done := false } (NewRequest "q" []) none (fun _ => TransportResult.failure) ∧
     (Run { Endpoint := "http://e",
            InspectRun := [("ResBody", InspectVal.body "stale")] }
        { done := false } (NewRequest "q" []) none
        (fun _ => TransportResult.failure)).client.InspectRun.head? =
       some ("ReqBody", InspectVal.reqBody (NewRequest "q" []).q (NewRequest "q" []).vars
         (NewRequest "q" []).opName)) :=
  ⟨rfl,
    run_resets_inspect_snapshot { Endpoint := "http://e" }
      [("ResBody", InspectVal.body "stale")] { done := false } (NewRequest "q" []) none
      (fun _ => TransportResult.failure) rfl⟩

/-- C7: the header merge writes only into the outbound request's fresh
header set: the client's stored header set is unchanged by `Run` (the
request's is untouched by construction — `Run` takes it by value and
builds the merge in `buildOutbound`), so a second exchange on the same
client with a request carrying no request-scoped headers sends exactly
the client-level header values, with nothing left over from any prior
exchange. -/
theorem run_header_merge_mutates_nothing (c : Client) (ctx : Ctx) (req : Request)
    (resp : Option Json) (transport : Transport) (q2 : String) (k : String) :
    (Run c ctx req resp transport).client.Header = c.Header ∧
    headerValues (buildOutbound (Run c ctx req resp transport).client
        { q := q2, Header := [] }).Header k = headerValues c.Header k := by
  refine ⟨run_client_Header c ctx req resp transport, ?_⟩
  rw [headerValues_buildOutbound, run_client_Header]
  simp [headerValues]

/-- C8: a wire error record whose `locations` field is an array of
`{"line": int, "column": int}` objects (lowercase keys, as on the wire)
decodes to a `GraphQLError` carrying exactly those line and column
values, in order — Go's `json.Unmarshal` matches the lowercase keys to
the `"Line"`/`"Column"` field tags case-insensitively. -/
theorem decode_error_locations_in_order (m : String) (ps : List (Int × Int))
    (path : List Json) (ext : List (String × Json)) :
    decodeGraphQLError (Json.obj
      [("message", Json.str m),
       ("locations", Json.arr (ps.map (fun p =>
          Json.obj [("line", Json.num p.1), ("column", Json.num p.2)]))),
       ("path", Json.arr path),
       ("extensions", Json.obj ext)]) =
    .ok { Message := m,
          Locations := ps.map (fun p => { Line := p.1, Column := p.2 }),
          Path := path, Extensions := ext } := by
  have e1 : fieldValue
      [("message", Json.str m),
       ("locations", Json.arr (ps.map (fun p =>
          Json.obj [("line", Json.num p.1), ("column", Json.num p.2)]))),
       ("path", Json.arr path),
       ("extensions", Json.obj ext)] "message" = some (Json.str m) := rfl
  have e2 : fieldValue
      [("message", Json.str m),
       ("locations", Json.arr (ps.map (fun p =>
          Json.obj [("line", Json.num p.1), ("column", Json.num p.2)]))),
       ("path", Json.arr path),
       ("extensions", Json.obj ext)] "locations" = some (Json.arr (ps.map (fun p =>
          Json.obj [("line", Json.num p.1), ("column", Json.num p.2)]))) := rfl
  have e3 : fieldValue
      [("message", Json.str m),
       ("locations", Json.arr (ps.map (fun p =>
          Json.obj [("line", Json.num p.1), ("column", Json.num p.2)]))),
       ("path", Json.arr path),
       ("extensions", Json.obj ext)] "path" = some (Json.arr path) := rfl
  have e4 : fieldValue
      [("message", Json.str m),
       ("locations", Json.arr (ps.map (fun p =>
          Json.obj [("line", Json.num p.1), ("column", Json.num p.2)]))),
       ("path", Json.arr path),
       ("extensions", Json.obj ext)] "extensions" = some (Json.obj ext) := rfl
  simp [decodeGraphQLError, e1, e2, e3, e4, decodeLocations_wire]
  rfl

/-- C2: for a 200 response whose decoded envelope carries an error list
`es` (non-empty or empty — an absent `errors` key decodes to the empty
list via `errorsField`), `Run` returns exactly `es` with a nil failure,
and the caller's result target is populated from the envelope's `data`
field. -/
theorem run_200_protocol_errors_with_nil_failure (c : Client) (ctx : Ctx) (req : Request)
    (t0 d : Json) (res : HTTPResponse) (fields : List (String × Json))
    (es : List GraphQLError)
    (hctx : ctx.done = false) (hstatus : res.StatusCode = 200)
    (hread : res.BodyReadErr = false)
    (hbody : res.BodyJson = some (Json.obj fields))
    (hdata : fieldValue fields "data" = some d) (hd : d ≠ Json.null)
    (herrs : errorsField fields = .ok es) :
    (Run c ctx req (some t0) (fun _ => .success res)).gqlErrors = es ∧
    (Run c ctx req (some t0) (fun _ => .success res)).err = none ∧
    (Run c ctx req (some t0) (fun _ => .success res)).target = some d := by
  have hdec : decodeGraphQLResponse (Json.obj fields) (some t0) = .ok (some d, es) := by
    simp [decodeGraphQLResponse, herrs, updateTarget, hdata, hd, Except.map]
  rcases es with _ | ⟨e0, es'⟩ <;>
    simp [Run, hctx, runExchange, hstatus, hread, hbody, hdec]

/-- Witness for C2: a 200 response carrying both data and one protocol
error (the repository's own test vector). -/
theorem run_200_protocol_errors_with_nil_failure_witness :
    Ctx.done { done := false } = false ∧
    HTTPResponse.StatusCode { StatusCode := 200, BodyJson := some (Json.obj [("data", Json.obj [("something", Json.str "yes")]), ("errors", Json.arr [Json.obj [("message", Json.str "oops")]])]) } = 200 ∧
    HTTPResponse.BodyReadErr { StatusCode := 200, BodyJson := some (Json.obj [("data", Json.obj [("something", Json.str "yes")]), ("errors", Json.arr [Json.obj [("message", Json.str "oops")]])]) } = false ∧
    HTTPResponse.BodyJson { StatusCode := 200, BodyJson := some (Json.obj [("data", Json.obj [("something", Json.str "yes")]), ("errors", Json.arr [Json.obj [("message", Json.str "oops")]])]) } = some (Json.obj [("data", Json.obj [("something", Json.str "yes")]), ("errors", Json.arr [Json.obj [("message", Json.str "oops")]])]) ∧
    fieldValue [("data", Json.obj [("something", Json.str "yes")]), ("errors", Json.arr [Json.obj [("message", Json.str "oops")]])] "data" = some (Json.obj [("something", Json.str "yes")]) ∧
    Json.obj [("something", Json.str "yes")] ≠ Json.null ∧
    errorsField [("data", Json.obj [("something", Json.str "yes")]), ("errors", Json.arr [Json.obj [("message", Json.str "oops")]])] = .ok [{ Message := "oops", Locations := [], Path := [], Extensions := [] }] ∧
    ((Run (NewClient "http://e" []) { done := false } (NewRequest "querytext" []) (some Json.null) (fun _ => .success { StatusCode := 200, BodyJson := some (Json.obj [("data", Json.obj [("something", Json.str "yes")]), ("errors", Json.arr [Json.obj [("message", Json.str "oops")]])]) })).gqlErrors = [{ Message := "oops", Locations := [], Path := [], Extensions := [] }] ∧
     (Run (NewClient "http://e" []) { done := false } (NewRequest "querytext" []) (some Json.null) (fun _ => .success { StatusCode := 200, BodyJson := some (Json.obj [("data", Json.obj [("something", Json.str "yes")]), ("errors", Json.arr [Json.obj [("message", Json.str "oops")]])]) })).err = none ∧
     (Run (NewClient "http://e" []) { done := false } (NewRequest "querytext" []) (some Json.null) (fun _ => .success { StatusCode := 200, BodyJson := some (Json.obj [("data", Json.obj [("something", Json.str "yes")]), ("errors", Json.arr [Json.obj [("message", Json.str "oops")]])]) })).target = some (Json.obj [("something", Json.str "yes")])) :=
  ⟨rfl, rfl, rfl, rfl, rfl, by decide, by decide,
    run_200_protocol_errors_with_nil_failure (NewClient "http://e" []) { done := false }
      (NewRequest "querytext" []) Json.null (Json.obj [("something", Json.str "yes")])
      { StatusCode := 200, BodyJson := some (Json.obj [("data", Json.obj [("something", Json.str "yes")]), ("errors", Json.arr [Json.obj [("message", Json.str "oops")]])]) }
      [("data", Json.obj [("something", Json.str "yes")]), ("errors", Json.arr [Json.obj [("message", Json.str "oops")]])]
      [{ Message := "oops", Locations := [], Path := [], Extensions := [] }]
      rfl rfl rfl rfl rfl (by decide) (by decide)⟩

theorem decode_target_independent (j : Json) (t1 t2 : Option Json) :
    (decodeGraphQLResponse j t1).map Prod.snd = (decodeGraphQLResponse j t2).map Prod.snd := by
  cases j <;> simp [decodeGraphQLResponse, Except.map]
  case obj fields => cases h : errorsField fields <;> simp [h, Except.map]

theorem runExchange_target_independent (c : Client) (t0 : Json) (tr : TransportResult) :
    (runExchange c none tr).calls = 1 ∧
    (runExchange c none tr).gqlErrors = (runExchange c (some t0) tr).gqlErrors ∧
    (runExchange c none tr).err = (runExchange c (some t0) tr).err := by
  cases tr with
  | failure => simp [runExchange]
  | success res =>
    by_cases h200 : res.StatusCode = 200
    · by_cases hre : res.BodyReadErr = true
      · simp [runExchange, h200, hre]
      · cases hbj : res.BodyJson with
        | none => simp [runExchange, h200, hre, hbj]
        | some j =>
          have hsnd := decode_target_independent j none (some t0)
          cases h1 : decodeGraphQLResponse j none with
          | error e1 =>
            cases h2 : decodeGraphQLResponse j (some t0) with
            | error e2 => simp [runExchange, h200, hre, hbj, h1, h2]
            | ok p2 =>
              rw [h1, h2] at hsnd
              simp [Except.map] at hsnd
          | ok p1 =>
            cases h2 : decodeGraphQLResponse j (some t0) with
            | error e2 =>
              rw [h1, h2] at hsnd
              simp [Except.map] at hsnd
            | ok p2 =>
              obtain ⟨ta, esa⟩ := p1
              obtain ⟨tb, esb⟩ := p2
              rw [h1, h2] at hsnd
              simp [Except.map] at hsnd
              subst hsnd
              by_cases hl : 0 < esa.length <;>
                simp [runExchange, h200, hre, hbj, h1, h2, hl]
    · simp [runExchange, h200]

/-- C9: with no result target supplied, `Run` still performs the
exchange in full (exactly one transport call) and returns the same
GraphQL error list and the same failure error as the identical call with
a target — the absence of the target introduces no failure and changes
no returned error. -/
theorem run_nil_target_still_full_exchange (c : Client) (ctx : Ctx) (req : Request)
    (t0 : Json) (transport : Transport) (hctx : ctx.done = false) :
    (Run c ctx req none transport).calls = 1 ∧
    (Run c ctx req none transport).gqlErrors =
      (Run c ctx req (some t0) transport).gqlErrors ∧
    (Run c ctx req none transport).err = (Run c ctx req (some t0) transport).err := by
  simp only [Run, hctx, Bool.false_eq_true, if_false]
  exact runExchange_target_independent _ t0 _

/-- Witness for C9: a 200 response carrying a protocol error, once run
without and once with a result target. -/
theorem run_nil_target_still_full_exchange_witness :
    Ctx.done { done := false } = false ∧
    ((Run (NewClient "http://e" []) { done := false } (NewRequest "querytext" []) none (fun _ => .success { StatusCode := 200, BodyJson := some (Json.obj [("data", Json.obj [("something", Json.str "yes")]), ("errors", Json.arr [Json.obj [("message", Json.str "oops")]])]) })).calls = 1 ∧
     (Run (NewClient "http://e" []) { done := false } (NewRequest "querytext" []) none (fun _ => .success { StatusCode := 200, BodyJson := some (Json.obj [("data", Json.obj [("something", Json.str "yes")]), ("errors", Json.arr [Json.obj [("message", Json.str "oops")]])]) })).gqlErrors =
       (Run (NewClient "http://e" []) { done := false } (NewRequest "querytext" []) (some Json.null) (fun _ => .success { StatusCode := 200, BodyJson := some (Json.obj [("data", Json.obj [("something", Json.str "yes")]), ("errors", Json.arr [Json.obj [("message", Json.str "oops")]])]) })).gqlErrors ∧
     (Run (NewClient "http://e" []) { done := false } (NewRequest "querytext" []) none (fun _ => .success { StatusCode := 200, BodyJson := some (Json.obj [("data", Json.obj [("something", Json.str "yes")]), ("errors", Json.arr [Json.obj [("message", Json.str "oops")]])]) })).err =
       (Run (NewClient "http://e" []) { done := false } (NewRequest "querytext" []) (some Json.null) (fun _ => .success { StatusCode := 200, BodyJson := some (Json.obj [("data", Json.obj [("something", Json.str "yes")]), ("errors", Json.arr [Json.obj [("message", Json.str "oops")]])]) })).err) :=
  ⟨rfl,
    run_nil_target_still_full_exchange (NewClient "http://e" []) { done := false }
      (NewRequest "querytext" []) Json.null
      (fun _ => .success { StatusCode := 200, BodyJson := some (Json.obj [("data", Json.obj [("something", Json.str "yes")]), ("errors", Json.arr [Json.obj [("message", Json.str "oops")]])]) })
      rfl⟩

end Graphqlgo
